import Mathlib

/-!
Verification of the OddFury Telegram bot's core logic, shallowly embedded
from the Python sources (`match_service.py`, `database_service.py`,
`payment_service.py`).

Conventions of the embedding:
* timestamps are integers (seconds); `datetime.utcnow()` becomes an explicit
  `now : Int` argument;
* SQL floats and Python floats become rationals (`ℚ`);
* a SQL `SELECT ... WHERE p` over a table becomes `List.filter` over the
  table's rows in insertion order, `first()` becomes `List.find?`;
* network calls are passed in as explicit outcome values, so that a stateful
  method becomes a pure state-transition function.
-/

namespace OddFury

/-! ## Rounding to a fixed number of decimal places

The spec's target-odds rule compares the odds pair after rounding the
first value to 2 decimal places and the second to 3 (the repository's only
rendering of that rule, the `func.round(...)` query text at
`database_service.py` lines 272–293, is dead code: every call raises
`NameError`, since `self` is referenced in a `@staticmethod` and neither
`or_` nor `func` is imported).  `roundTo d q` rounds the rational `q` to
`d` decimal places, rounding halves up (the behaviour of SQL `ROUND` on
the positive odds values that occur here). -/

def roundTo (d : ℕ) (q : ℚ) : ℚ :=
  (round (q * 10 ^ d) : ℚ) / 10 ^ d

/-- The two target odds pairs of the business rule, as the spec states them:
(4.25, 1.225) and (4.22, 1.225). -/
def targetPairs : List (ℚ × ℚ) :=
  [(425 / 100, 1225 / 1000), (422 / 100, 1225 / 1000)]

/-! ## Raw match records from the odds API (`match_service.py`)

`MatchService.check_for_matches_with_target_odds` reads `odds_1` and
`odds_2` out of each raw record with `float(match.get("odds_1", 0))`: a
missing key yields `0.0`, an unparsable value raises and the record is
skipped by the surrounding `try/except`. -/

/-- A field of a raw match record as seen by `float(match.get(key, 0))`:
absent, present but not parsable as a float, or a numeric value. -/
inductive FloatField where
  | missing
  | bad
  | val (q : ℚ)
  deriving DecidableEq, Repr

/-- A raw match record from the odds feed.  Only `odds_1` and `odds_2` are
inspected by the filter; everything else is collapsed into `id`. -/
structure RawMatch where
  id : Int
  odds_1 : FloatField
  odds_2 : FloatField
  deriving DecidableEq, Repr

/-- `float(match.get(key, 0))`: `missing ↦ 0`, `bad` raises (`none`). -/
def parseOdds : FloatField → Option ℚ
  | .missing => some 0
  | .bad => none
  | .val q => some q

/-- The loop body of `MatchService.check_for_matches_with_target_odds`
(`match_service.py` lines 89–96): both odds parse without raising, and
`min_odds <= odds_1 <= max_odds or min_odds <= odds_2 <= max_odds`. -/
def oddsInRange (minOdds maxOdds : ℚ) (m : RawMatch) : Bool :=
  match parseOdds m.odds_1, parseOdds m.odds_2 with
  | some o1, some o2 =>
      decide (minOdds ≤ o1 ∧ o1 ≤ maxOdds) || decide (minOdds ≤ o2 ∧ o2 ≤ maxOdds)
  | _, _ => false

/-- Embedding of the filtering part of
`MatchService.check_for_matches_with_target_odds` over an already-fetched
list of records.  The source's default arguments are `min_odds = 1.5`,
`max_odds = 5.0`. -/
def check_for_matches_with_target_odds (ms : List RawMatch)
    (minOdds maxOdds : ℚ) : List RawMatch :=
  ms.filter (oddsInRange minOdds maxOdds)

/-- C8: the in-process odds filter is idempotent, and its output is a
subsequence of its input (same elements, original relative order).  Being a
plain function of its arguments, it returns the same output on every
application to the same input. -/
theorem target_odds_filter_pure :
    (∀ (ms : List RawMatch) (mn mx : ℚ),
      check_for_matches_with_target_odds
          (check_for_matches_with_target_odds ms mn mx) mn mx =
        check_for_matches_with_target_odds ms mn mx) ∧
    (∀ (ms : List RawMatch) (mn mx : ℚ),
      (check_for_matches_with_target_odds ms mn mx).Sublist ms) := by
  constructor
  · intro ms mn mx
    unfold check_for_matches_with_target_odds
    rw [List.filter_filter]
    apply List.filter_congr
    intro m _
    cases oddsInRange mn mx m <;> simp
  · intro ms mn mx
    exact List.filter_sublist ms

/-- C1: the claimed selection rule is false of the filter the program
actually runs.  At the failing input — a fetched record with
`odds_1 = 2.0`, `odds_2 = 2.0` — `check_for_matches_with_target_odds`
(with its source defaults `min_odds = 1.5`, `max_odds = 5.0`) includes the
record, although its rounded odds pair (2, 2) is neither (4.25, 1.225) nor
(4.22, 1.225); the filter consults no kickoff-time or notified flag at
all.  The only rendering of the claimed rule,
`DatabaseService.get_matches_with_target_odds`, raises `NameError` on
every call and has no call site. -/
theorem target_odds_running_filter_diverges :
    check_for_matches_with_target_odds [⟨0, .val 2, .val 2⟩] (3 / 2) 5 =
      [⟨0, .val 2, .val 2⟩] ∧
    (roundTo 2 2, roundTo 3 2) ∉ targetPairs := by
  constructor
  · have hcond : ((3 : ℚ) / 2 ≤ 2 ∧ (2 : ℚ) ≤ 5) := by norm_num
    have hm : oddsInRange (3 / 2) 5 ⟨0, .val 2, .val 2⟩ = true := by
      unfold oddsInRange parseOdds
      simp [hcond]
    unfold check_for_matches_with_target_odds
    simp [List.filter_cons, hm]
  · have ha : roundTo 2 (2 : ℚ) = 2 := by norm_num [roundTo, round_eq]
    have hb : roundTo 3 (2 : ℚ) = 2 := by norm_num [roundTo, round_eq]
    simp only [targetPairs, ha, hb, List.mem_cons, List.not_mem_nil, or_false,
      Prod.mk.injEq]
    norm_num

/-! ## The match cache (`MatchService.fetch_matches`)

State: `self.cache` (initially `[]`), `self.last_update` (initially
`None`), `self.cache_ttl` (seconds).  The provider's would-be return value
is passed in as `fetched`; the returned `Bool` records whether the outbound
API call was actually made. -/

structure CacheState where
  cache : List RawMatch
  last_update : Option Int
  cache_ttl : Int
  deriving DecidableEq, Repr

/-- The TTL test `self.last_update and (now - self.last_update).total_seconds() < self.cache_ttl`. -/
def cacheFresh (s : CacheState) (now : Int) : Bool :=
  match s.last_update with
  | some t => decide (now - t < s.cache_ttl)
  | none => false

/-- Embedding of `MatchService.fetch_matches` (`match_service.py` lines
69–82).  On a TTL hit it returns the cache without calling the provider;
otherwise it calls the provider: a non-empty result replaces the cache and
timestamp and is returned, an empty result leaves both untouched and the
(possibly stale) cache is returned. -/
def fetch_matches (s : CacheState) (now : Int) (fetched : List RawMatch) :
    CacheState × List RawMatch × Bool :=
  if cacheFresh s now then (s, s.cache, false)
  else if fetched.isEmpty then (s, s.cache, true)
  else ({ s with cache := fetched, last_update := some now }, fetched, true)

/-- Helper: an empty provider result never changes the state, and the
stored sequence is what the call returns. -/
theorem fetchMatches_empty_frame (s : CacheState) (now : Int) :
    (fetch_matches s now []).1 = s ∧ (fetch_matches s now []).2.1 = s.cache := by
  unfold fetch_matches
  by_cases h : cacheFresh s now = true <;> simp [h]

/-- C2: a call in which the provider returns empty changes neither the
stored sequence nor the last-success timestamp and returns the stored
sequence; and in general a call either leaves the whole state unchanged or
records exactly a successful (non-empty) provider result together with its
time — so the cache always holds the most recent successful fetch, or its
initial empty value if none ever succeeded. -/
theorem cache_unchanged_on_empty_fetch :
    (∀ (s : CacheState) (now : Int),
      (fetch_matches s now []).1 = s ∧ (fetch_matches s now []).2.1 = s.cache) ∧
    (∀ (s : CacheState) (now : Int) (fetched : List RawMatch),
      (fetch_matches s now fetched).1 = s ∨
        (fetched ≠ [] ∧ (fetch_matches s now fetched).1.cache = fetched ∧
          (fetch_matches s now fetched).1.last_update = some now)) := by
  constructor
  · exact fetchMatches_empty_frame
  · intro s now fetched
    unfold fetch_matches
    by_cases h : cacheFresh s now = true
    · simp [h]
    · by_cases he : fetched.isEmpty = true
      · simp [h, he]
      · right
        refine ⟨fun hn => by simp [hn] at he, ?_, ?_⟩ <;> simp [h, he]

/-- C3: when a previous successful fetch exists and `now - last_update`
is strictly below the TTL, the call is a pure cache hit: no outbound fetch
happens (whatever the provider would have returned), the state is
unchanged, and the stored sequence is returned. -/
theorem cache_ttl_no_fetch (s : CacheState) (t now : Int) (fetched : List RawMatch)
    (hlu : s.last_update = some t) (httl : now - t < s.cache_ttl) :
    fetch_matches s now fetched = (s, s.cache, false) := by
  unfold fetch_matches cacheFresh
  rw [hlu]
  simp [httl]

/-- Witness for C3 at a concrete state: last success at time 100, TTL 600,
query at time 200. -/
theorem cache_ttl_no_fetch_witness :
    fetch_matches ⟨[⟨1, .val 2, .val 3⟩], some 100, 600⟩ 200 [⟨2, .val 4, .val 5⟩] =
      (⟨[⟨1, .val 2, .val 3⟩], some 100, 600⟩, [⟨1, .val 2, .val 3⟩], false) :=
  cache_ttl_no_fetch _ 100 200 _ rfl (by decide)

/-! ## The odds API client (`FootballApiClient.fetch_matches`)

The source (`match_service.py` lines 41–57) does
`data = await resp.json(); return data` with no shape check: a 200 body on
which `resp.json()` raises is caught by the `except` and becomes `[]`, but
a 200 body that decodes to something other than a match list is returned
verbatim. -/

/-- What a 200 response body did under `resp.json()`: raised, decoded to a
list of match records, or decoded to some other JSON value (carrying only
its Python truthiness, which is all the caller ever inspects). -/
inductive ApiBody where
  | raising
  | matchList (data : List RawMatch)
  | nonList (truthy : Bool)
  deriving DecidableEq, Repr

/-- What the HTTP layer did: the request raised (network error, timeout),
or a response arrived with a status and body. -/
inductive ProviderOutcome where
  | netError
  | response (status : ℕ) (body : ApiBody)
  deriving DecidableEq, Repr

/-- What `FootballApiClient.fetch_matches` returns: `data` verbatim — a
match list, or whatever else the 200 body decoded to. -/
inductive ApiResult where
  | matches (data : List RawMatch)
  | nonList (truthy : Bool)
  deriving DecidableEq, Repr

/-- Python's `not self.api_key`: true when the key is unset or empty. -/
def keyMissing : Option String → Bool
  | none => true
  | some k => k == ""

/-- Embedding of `FootballApiClient.fetch_matches` (`match_service.py`
lines 41–57): missing key, request exception, non-200 status and a body on
which JSON decoding raises all produce `[]`; any decoded body — match list
or not — is returned verbatim. -/
def api_fetch_matches (apiKey : Option String) (o : ProviderOutcome) : ApiResult :=
  if keyMissing apiKey then .matches []
  else
    match o with
    | .netError => .matches []
    | .response status body =>
      if status ≠ 200 then .matches []
      else
        match body with
        | .raising => .matches []
        | .matchList data => .matches data
        | .nonList t => .nonList t

/-- The provider-failure outcomes the client does absorb: missing API key,
network error/timeout, non-200 status, or a body on which JSON decoding
raises. -/
def providerFailure (apiKey : Option String) (o : ProviderOutcome) : Prop :=
  keyMissing apiKey = true ∨ o = .netError ∨
    ∃ status body, o = .response status body ∧ (status ≠ 200 ∨ body = .raising)

/-- C6 counterexample: a 200 response whose JSON decodes to a non-list —
a malformed payload — is returned verbatim, not converted to the empty
sequence, refuting the claim at this concrete provider outcome. -/
theorem api_malformed_not_absorbed :
    api_fetch_matches (some "k") (.response 200 (.nonList true)) = .nonList true ∧
    (ApiResult.nonList true) ≠ .matches [] := by
  exact ⟨by decide, by decide⟩

/-- C6 (amended): the client never raises (the embedding is total) and
returns the empty list on missing API key, request exception, non-200
status, or a body on which JSON decoding raises, and feeding that empty
result to the cache leaves the cache state untouched and serves the stored
sequence; a 200 body decoding to a non-list, however, is passed through
(see the counterexample). -/
theorem api_listed_failures_absorbed (apiKey : Option String) (o : ProviderOutcome)
    (h : providerFailure apiKey o) :
    api_fetch_matches apiKey o = .matches [] ∧
    ∀ (s : CacheState) (now : Int),
      (fetch_matches s now []).1 = s ∧ (fetch_matches s now []).2.1 = s.cache := by
  have hempty : api_fetch_matches apiKey o = .matches [] := by
    unfold api_fetch_matches
    by_cases hk : keyMissing apiKey = true
    · simp [hk]
    · rcases h with h | h | ⟨status, body, rfl, h⟩
      · exact absurd h hk
      · simp [hk, h]
      · rcases h with h | h
        · simp [hk, h]
        · by_cases hs : status = 200 <;> simp [hk, hs, h]
  exact ⟨hempty, fun s now => fetchMatches_empty_frame s now⟩

/-- Witness for the amended C6: an unset API key with a network error
yields `[]`, and an empty initial cache stays empty and is served. -/
theorem api_listed_failures_absorbed_witness :
    api_fetch_matches none .netError = .matches [] ∧
    (fetch_matches ⟨[], none, 600⟩ 0 []).1 = ⟨[], none, 600⟩ :=
  ⟨(api_listed_failures_absorbed none .netError (Or.inl rfl)).1,
    ((api_listed_failures_absorbed none .netError (Or.inl rfl)).2 ⟨[], none, 600⟩ 0).1⟩

/-! ## The donations client (`payment_service.DonationAlertsClient`) -/

/-- A donation record as consumed by the matching loop: the code reads
`donation.get("message", "")` and `donation.get("amount", 0)`. -/
structure Donation where
  message : String
  amount : ℚ
  deriving DecidableEq, Repr

/-- Outcome of the donations HTTP call.  A 200 body is a JSON object,
modelled as an ordered association list of donation-list values; `none`
stands for a body on which `resp.json()` raises. -/
inductive DonationsOutcome where
  | reqError
  | response (status : ℕ) (body : Option (List (String × List Donation)))
  deriving DecidableEq

/-- Embedding of `DonationAlertsClient.get_recent_donations`
(`payment_service.py` lines 73–98): missing key, request exception,
non-200 status and unparsable body give `[]`; otherwise the value under
the first present key of `("data", "donations", "results")` is returned,
falling back to `list(data.values())[0] if data else []`. -/
def get_recent_donations (apiKey : Option String) (o : DonationsOutcome) : List Donation :=
  if keyMissing apiKey then []
  else
    match o with
    | .reqError => []
    | .response status body =>
      if status ≠ 200 then []
      else
        match body with
        | none => []
        | some data =>
          match data.lookup "data" with
          | some v => v
          | none =>
            match data.lookup "donations" with
            | some v => v
            | none =>
              match data.lookup "results" with
              | some v => v
              | none =>
                match data.head? with
                | some kv => kv.2
                | none => []

/-- The known donation-list key names, in the order the source checks them. -/
def knownDonationKeys : List String := ["data", "donations", "results"]

/-- The claim's description of the extraction: the value under the first
present known key, else the first value of the object, else `[]`. -/
def extractDonationsSpec (data : List (String × List Donation)) : List Donation :=
  match knownDonationKeys.findSome? (fun k => data.lookup k) with
  | some v => v
  | none => ((data.head?).map Prod.snd).getD []

/-- C7: on missing API key, request error, non-200 status or unparsable
body the client returns `[]`; on a 200 JSON object it returns exactly what
the claim's extraction rule describes. -/
theorem donations_extraction_spec :
    (∀ (apiKey : Option String) (o : DonationsOutcome),
      (keyMissing apiKey = true ∨ o = .reqError ∨
        ∃ status body, o = .response status body ∧ (status ≠ 200 ∨ body = none)) →
      get_recent_donations apiKey o = []) ∧
    (∀ (apiKey : Option String) (data : List (String × List Donation)),
      keyMissing apiKey = false →
      get_recent_donations apiKey (.response 200 (some data)) = extractDonationsSpec data) := by
  constructor
  · intro apiKey o h
    unfold get_recent_donations
    by_cases hk : keyMissing apiKey = true
    · simp [hk]
    · rcases h with h | h | ⟨status, body, rfl, h⟩
      · exact absurd h hk
      · simp [hk, h]
      · rcases h with h | h
        · simp [hk, h]
        · by_cases hs : status = 200 <;> simp [hk, hs, h]
  · intro apiKey data hk
    unfold get_recent_donations extractDonationsSpec knownDonationKeys
    simp only [hk, Bool.false_eq_true, if_false, ne_eq, not_true_eq_false, if_false,
      List.findSome?_cons]
    cases h1 : data.lookup "data" <;>
      cases h2 : data.lookup "donations" <;>
        cases h3 : data.lookup "results" <;>
          simp [List.findSome?, h1, h2, h3]
    cases data <;> simp

/-- Witness for C7: a request error yields `[]`; a 200 object whose list
sits under `"donations"` is extracted per the spec rule. -/
theorem donations_extraction_spec_witness :
    get_recent_donations none .reqError = [] ∧
    get_recent_donations (some "k") (.response 200 (some [("donations", [⟨"hi", 5⟩])])) =
      extractDonationsSpec [("donations", [⟨"hi", 5⟩])] :=
  ⟨donations_extraction_spec.1 none .reqError (Or.inr (Or.inl rfl)),
    donations_extraction_spec.2 (some "k") [("donations", [⟨"hi", 5⟩])] (by decide)⟩

/-! ## Payment-link matching (`PaymentService.check_payment`) -/

/-- A row of the `payment_links` table. -/
structure PaymentLinkR where
  telegram_user_id : Int
  unique_id : String
  subscription_type : String
  amount : ℚ
  paid : Bool
  deriving DecidableEq, Repr

/-- Python's substring test `needle in hay`. -/
def strContains (hay needle : String) : Prop :=
  needle.data <:+: hay.data

instance (hay needle : String) : Decidable (strContains hay needle) := by
  unfold strContains; infer_instance

/-- The matching test of the loop in `PaymentService.check_payment`
(`payment_service.py` lines 181–190):
`str(link.unique_id) in str(donation["message"])` and
`float(donation["amount"]) >= float(link.amount)`. -/
def donationMatches (link : PaymentLinkR) (d : Donation) : Bool :=
  decide (strContains d.message link.unique_id) && decide (d.amount ≥ link.amount)

/-- The loop itself: first donation that matches, if any. -/
def findDonation (link : PaymentLinkR) (donations : List Donation) : Option Donation :=
  donations.find? (donationMatches link)

/-- The scenario link of the spec: `unique_id="abc123"`, `amount=650`. -/
def abcLink : PaymentLinkR := ⟨7, "abc123", "week", 650, false⟩

/-- C4: a donation matches the pending link iff its message contains the
link's `unique_id` as a substring and its amount is at least the link's
amount; concretely, against `abc123`/650 a donation carrying the id with
amount 650 matches and one with amount 649.99 does not. -/
theorem payment_matching_iff :
    (∀ (link : PaymentLinkR) (donations : List Donation),
      (findDonation link donations).isSome ↔
        ∃ d ∈ donations, strContains d.message link.unique_id ∧ link.amount ≤ d.amount) ∧
    (findDonation abcLink [⟨"pay abc123 now", 650⟩]).isSome = true ∧
    (findDonation abcLink [⟨"pay abc123 now", 64999 / 100⟩]).isSome = false := by
  have hno : donationMatches abcLink ⟨"pay abc123 now", 64999 / 100⟩ = false := by
    have h : ¬ ((650 : ℚ) ≤ 64999 / 100) := by norm_num
    simp [donationMatches, abcLink, ge_iff_le, h]
  refine ⟨fun link donations => ?_, by decide, ?_⟩
  · unfold findDonation donationMatches
    rw [List.find?_isSome]
    simp [ge_iff_le, and_assoc]
  · simp [findDonation, List.find?_cons, hno]

/-! ## The persistence store (`database_service.DatabaseService`)

Tables become lists of rows in insertion order.  The ORM pattern
"`select(...).first()`, mutate the fetched row, commit" becomes: `find?`
the row, then rewrite the first row satisfying the same predicate. -/

/-- Rewrite the first element satisfying `p` with `f`; leave the rest. -/
def updateFirst {α : Type} (p : α → Bool) (f : α → α) : List α → List α
  | [] => []
  | x :: xs => if p x then f x :: xs else x :: updateFirst p f xs

theorem updateFirst_of_find?_none {α : Type} (p : α → Bool) (f : α → α)
    (l : List α) (h : l.find? p = none) : updateFirst p f l = l := by
  induction l with
  | nil => rfl
  | cons x xs ih =>
    by_cases hp : p x = true
    · rw [List.find?_cons_of_pos _ hp] at h
      exact absurd h (by simp)
    · rw [List.find?_cons_of_neg _ (by simpa using hp)] at h
      simp [updateFirst, hp, ih h]

theorem updateFirst_split {α : Type} (p : α → Bool) (f : α → α) (l : List α) (u : α)
    (h : l.find? p = some u) :
    ∃ l1 l2, l = l1 ++ u :: l2 ∧ (∀ x ∈ l1, ¬ p x = true) ∧
      updateFirst p f l = l1 ++ f u :: l2 := by
  induction l with
  | nil => simp at h
  | cons x xs ih =>
    by_cases hp : p x = true
    · rw [List.find?_cons_of_pos _ hp] at h
      obtain rfl : x = u := by injection h
      exact ⟨[], xs, by simp, by simp, by simp [updateFirst, hp]⟩
    · rw [List.find?_cons_of_neg _ (by simpa using hp)] at h
      obtain ⟨l1, l2, hsplit, hl1, hupd⟩ := ih h
      refine ⟨x :: l1, l2, by simp [hsplit], ?_, by simp [updateFirst, hp, hupd]⟩
      intro y hy
      rcases List.mem_cons.mp hy with rfl | hy
      · exact hp
      · exact hl1 y hy

theorem find?_append_of_none {α : Type} (p : α → Bool) {l1 : List α} (l2 : List α)
    (h : l1.find? p = none) : (l1 ++ l2).find? p = l2.find? p := by
  induction l1 with
  | nil => rfl
  | cons x xs ih =>
    by_cases hp : p x = true
    · rw [List.find?_cons_of_pos _ hp] at h
      exact absurd h (by simp)
    · rw [List.find?_cons_of_neg _ (by simpa using hp)] at h
      rw [List.cons_append, List.find?_cons_of_neg _ (by simpa using hp)]
      exact ih h

theorem updateFirst_append_of_none {α : Type} (p : α → Bool) (f : α → α)
    {l1 : List α} (l2 : List α) (h : l1.find? p = none) :
    updateFirst p f (l1 ++ l2) = l1 ++ updateFirst p f l2 := by
  induction l1 with
  | nil => rfl
  | cons x xs ih =>
    by_cases hp : p x = true
    · rw [List.find?_cons_of_pos _ hp] at h
      exact absurd h (by simp)
    · rw [List.find?_cons_of_neg _ (by simpa using hp)] at h
      simp [updateFirst, hp, ih h]

theorem find?_updateFirst {α : Type} (p : α → Bool) (f : α → α) (l : List α) (u : α)
    (h : l.find? p = some u) (hf : p (f u) = true) :
    (updateFirst p f l).find? p = some (f u) := by
  obtain ⟨l1, l2, _, hl1, hupd⟩ := updateFirst_split p f l u h
  rw [hupd, find?_append_of_none p _ (List.find?_eq_none.mpr fun x hx => by simp [hl1 x hx]),
    List.find?_cons_of_pos _ hf]

/-- A row of the `users` table.  `first_name`, `last_name` and the
registration date are irrelevant to the verified operations. -/
structure UserR where
  id : Int
  telegram_id : Int
  username : String
  trial_messages_left : Int
  deriving DecidableEq, Repr

/-- A row of the `subscriptions` table. -/
structure SubscriptionR where
  user_id : Int
  start_date : Int
  end_date : Int
  subscription_type : String
  price_paid : ℚ
  payment_id : String
  deriving DecidableEq, Repr

/-- The store: the three tables the verified operations touch. -/
structure DB where
  users : List UserR
  subscriptions : List SubscriptionR
  payment_links : List PaymentLinkR
  deriving DecidableEq, Repr

/-- `select(User).where(User.telegram_id == telegram_id)` + `first()`. -/
def get_user_by_telegram_id (db : DB) (tg : Int) : Option UserR :=
  db.users.find? (fun u => u.telegram_id == tg)

/-- `session.get(User, user_id)`: primary-key lookup. -/
def get_user_by_id (db : DB) (uid : Int) : Option UserR :=
  db.users.find? (fun u => u.id == uid)

/-- `select(User).where(User.username == username)` + `first()`. -/
def get_user_by_username (db : DB) (uname : String) : Option UserR :=
  db.users.find? (fun u => u.username == uname)

/-- The condition `and_(Subscription.user_id == user_id,
Subscription.end_date >= now)` shared by `has_active_subscription` and
`revoke_subscription`. -/
def activeSubFor (user_id now : Int) (s : SubscriptionR) : Bool :=
  s.user_id == user_id && decide (s.end_date ≥ now)

/-- Embedding of `DatabaseService.has_active_subscription`
(`database_service.py` lines 124–132). -/
def has_active_subscription (db : DB) (user_id now : Int) : Bool :=
  (db.subscriptions.find? (activeSubFor user_id now)).isSome

/-- Embedding of `DatabaseService.decrement_trial_message`
(`database_service.py` lines 133–140): fetch by primary key; if present
with a positive count, store count − 1 and return it; otherwise return 0
without touching the store. -/
def decrement_trial_message (db : DB) (user_id : Int) : DB × Int :=
  match get_user_by_id db user_id with
  | some u =>
    if 0 < u.trial_messages_left then
      ({ db with
          users := updateFirst (fun v => v.id == user_id)
            (fun v => { v with trial_messages_left := v.trial_messages_left - 1 })
            db.users },
        u.trial_messages_left - 1)
    else (db, 0)
  | none => (db, 0)

/-- `select(PaymentLink).where(PaymentLink.unique_id == unique_id)` + `first()`. -/
def get_payment_link (db : DB) (uid : String) : Option PaymentLinkR :=
  db.payment_links.find? (fun l => l.unique_id == uid)

/-- Embedding of `DatabaseService.mark_payment_as_paid`
(`database_service.py` lines 161–171): mark and return the link only when
it exists and is not yet paid; otherwise return `None`, store untouched. -/
def mark_payment_as_paid (db : DB) (uid : String) : DB × Option PaymentLinkR :=
  match get_payment_link db uid with
  | some l =>
    if !l.paid then
      ({ db with
          payment_links := updateFirst (fun l2 => l2.unique_id == uid)
            (fun l2 => { l2 with paid := true }) db.payment_links },
        some { l with paid := true })
    else (db, none)
  | none => (db, none)

/-- `timedelta` of `create_subscription` in seconds: `week ↦ 1 week`,
`two_weeks ↦ 2 weeks`, `month ↦ 31 days`, anything else `↦ 1 week`. -/
def subscription_duration : String → Int
  | "week" => 604800
  | "two_weeks" => 1209600
  | "month" => 2678400
  | _ => 604800

/-- Embedding of `DatabaseService.create_subscription`
(`database_service.py` lines 172–194): append a row running from `now` to
`now + duration` and return it. -/
def create_subscription (db : DB) (user_id : Int) (stype : String) (amount : ℚ)
    (payment_id : String) (now : Int) : DB × SubscriptionR :=
  let sub : SubscriptionR :=
    ⟨user_id, now, now + subscription_duration stype, stype, amount, payment_id⟩
  ({ db with subscriptions := db.subscriptions ++ [sub] }, sub)

/-- Embedding of `DatabaseService.revoke_subscription`
(`database_service.py` lines 228–252): look the user up by username, find
their first subscription with `end_date >= now`, set its end date to one
minute in the past, and return the user's telegram id; `None` when either
lookup fails. -/
def revoke_subscription (db : DB) (uname : String) (now : Int) : DB × Option Int :=
  match get_user_by_username db uname with
  | none => (db, none)
  | some user =>
    match db.subscriptions.find? (activeSubFor user.id now) with
    | none => (db, none)
    | some _ =>
      ({ db with
          subscriptions := updateFirst (activeSubFor user.id now)
            (fun s => { s with end_date := now - 60 }) db.subscriptions },
        some user.telegram_id)

/-- The possible results of `PaymentService.check_payment`, in the order
the source returns them. -/
inductive CheckResult where
  | linkNotFound
  | alreadyPaid
  | donationNotFound
  | markFailed
  | userNotFound
  | success (telegram_id : Int) (stype : String) (end_date : Int)
  deriving DecidableEq, Repr

/-- Embedding of `PaymentService.check_payment` (`payment_service.py`
lines 164–210).  The recent-donations poll result is passed in as
`donations`.  Caveat: the success branch models the intent of lines
193–204, whose calls `DatabaseService.mark_payment_as_paid(unique_id)`,
`DatabaseService.get_user_by_telegram_id(...)` and
`DatabaseService.create_subscription(...)` invoke instance methods unbound
on the class and would raise `TypeError`/`AttributeError` at runtime; the
theorems proved below only exercise the paths that return before reaching
it (link not found, already paid, no matching donation). -/
def check_payment (db : DB) (uid : String) (donations : List Donation) (now : Int) :
    DB × CheckResult :=
  match get_payment_link db uid with
  | none => (db, .linkNotFound)
  | some link =>
    if link.paid then (db, .alreadyPaid)
    else
      match findDonation link donations with
      | none => (db, .donationNotFound)
      | some _ =>
        match mark_payment_as_paid db uid with
        | (db1, none) => (db1, .markFailed)
        | (db1, some _) =>
          match get_user_by_telegram_id db1 link.telegram_user_id with
          | none => (db1, .userNotFound)
          | some user =>
            let res := create_subscription db1 user.id link.subscription_type link.amount uid now
            (res.1, .success user.telegram_id res.2.subscription_type res.2.end_date)

/-- Helper: one `decrement_trial_message` call keeps every stored trial
count non-negative. -/
theorem decrement_preserves_nonneg (db : DB) (uid : Int)
    (h : ∀ u ∈ db.users, 0 ≤ u.trial_messages_left) :
    ∀ v ∈ (decrement_trial_message db uid).1.users, 0 ≤ v.trial_messages_left := by
  intro v hv
  unfold decrement_trial_message at hv
  cases hg : get_user_by_id db uid with
  | none => simp only [hg] at hv; exact h v hv
  | some u =>
    simp only [hg] at hv
    have hg2 : db.users.find? (fun w => w.id == uid) = some u := hg
    by_cases ht : 0 < u.trial_messages_left
    · rw [if_pos ht] at hv
      obtain ⟨l1, l2, hsplit, hl1, hupd⟩ :=
        updateFirst_split (fun w => w.id == uid)
          (fun w => { w with trial_messages_left := w.trial_messages_left - 1 })
          db.users u hg2
      have hv' : v ∈ l1 ++ { u with trial_messages_left := u.trial_messages_left - 1 } :: l2 := by
        rw [← hupd]; exact hv
      rcases List.mem_append.mp hv' with hv2 | hv2
      · exact h v (hsplit ▸ List.mem_append_left _ hv2)
      · rcases List.mem_cons.mp hv2 with rfl | hv2
        · show 0 ≤ u.trial_messages_left - 1
          omega
        · exact h v (hsplit ▸ List.mem_append_right _ (List.mem_cons_of_mem _ hv2))
    · rw [if_neg ht] at hv; exact h v hv

/-- C9: when the user exists with a positive trial count the count stored
for them drops by exactly one and is returned, the other tables untouched;
when the user is absent or the count is not positive the store is
unchanged and 0 is returned; and along any sequence of decrements every
stored count stays non-negative. -/
theorem trial_decrement_spec :
    (∀ (db : DB) (uid : Int) (u : UserR),
      get_user_by_id db uid = some u → 0 < u.trial_messages_left →
        (decrement_trial_message db uid).2 = u.trial_messages_left - 1 ∧
        get_user_by_id (decrement_trial_message db uid).1 uid =
          some { u with trial_messages_left := u.trial_messages_left - 1 } ∧
        (decrement_trial_message db uid).1.subscriptions = db.subscriptions ∧
        (decrement_trial_message db uid).1.payment_links = db.payment_links) ∧
    (∀ (db : DB) (uid : Int),
      (get_user_by_id db uid = none ∨
        ∃ u, get_user_by_id db uid = some u ∧ u.trial_messages_left ≤ 0) →
      decrement_trial_message db uid = (db, 0)) ∧
    (∀ (db : DB) (ops : List Int),
      (∀ u ∈ db.users, 0 ≤ u.trial_messages_left) →
      ∀ u ∈ (ops.foldl (fun d i => (decrement_trial_message d i).1) db).users,
        0 ≤ u.trial_messages_left) := by
  refine ⟨?_, ?_, ?_⟩
  · intro db uid u hg ht
    have hg' : db.users.find? (fun w => w.id == uid) = some u := hg
    have hp := List.find?_some hg'
    have hstep : decrement_trial_message db uid =
        ({ db with
            users := updateFirst (fun v => v.id == uid)
              (fun v => { v with trial_messages_left := v.trial_messages_left - 1 })
              db.users },
          u.trial_messages_left - 1) := by
      unfold decrement_trial_message
      simp only [hg]
      rw [if_pos ht]
    refine ⟨by rw [hstep], ?_, by rw [hstep], by rw [hstep]⟩
    rw [hstep]
    exact find?_updateFirst _ _ db.users u hg' (by simpa using hp)
  · intro db uid h
    unfold decrement_trial_message
    rcases h with h | ⟨u, hg, hle⟩
    · simp only [h]
    · simp only [hg]
      rw [if_neg (by omega)]
  · intro db ops h
    induction ops generalizing db with
    | nil => simpa using h
    | cons i rest ih =>
      simp only [List.foldl_cons]
      exact ih _ (decrement_preserves_nonneg db i h)

/-- Concrete store for the C9 witness: one user with two trial messages. -/
def trialDB : DB := ⟨[⟨1, 42, "alice", 2⟩], [], []⟩

/-- Witness for C9 at `trialDB`: decrementing user 1 stores and returns 1;
decrementing the absent user 99 changes nothing and returns 0. -/
theorem trial_decrement_spec_witness :
    (decrement_trial_message trialDB 1).2 = 1 ∧
    get_user_by_id (decrement_trial_message trialDB 1).1 1 = some ⟨1, 42, "alice", 1⟩ ∧
    decrement_trial_message trialDB 99 = (trialDB, 0) :=
  ⟨(trial_decrement_spec.1 trialDB 1 ⟨1, 42, "alice", 2⟩ (by decide) (by decide)).1,
    (trial_decrement_spec.1 trialDB 1 ⟨1, 42, "alice", 2⟩ (by decide) (by decide)).2.1,
    trial_decrement_spec.2.1 trialDB 99 (Or.inl (by decide))⟩

/-- C5: for a user whose trial is exhausted and who has no subscription
row ending at or after `now`, `has_active_subscription` is false; after
`create_subscription` of type `"week"` dated from `now` it is true; after
`revoke_subscription` moves that subscription's end date into the past it
is false again, and the revocation reports the user's telegram id. -/
theorem subscription_lifecycle (db : DB) (uname : String) (u : UserR) (now : Int)
    (amt : ℚ) (pid : String)
    (hu : get_user_by_username db uname = some u)
    (_htrial : u.trial_messages_left = 0)
    (hins : ∀ s ∈ db.subscriptions, s.user_id = u.id → s.end_date < now) :
    has_active_subscription db u.id now = false ∧
    has_active_subscription (create_subscription db u.id "week" amt pid now).1 u.id now = true ∧
    (revoke_subscription (create_subscription db u.id "week" amt pid now).1 uname now).2 =
      some u.telegram_id ∧
    has_active_subscription
      (revoke_subscription (create_subscription db u.id "week" amt pid now).1 uname now).1
      u.id now = false := by
  have hdur : subscription_duration "week" = 604800 := by decide
  set newSub : SubscriptionR :=
    ⟨u.id, now, now + subscription_duration "week", "week", amt, pid⟩ with hns
  set db1 : DB := { db with subscriptions := db.subscriptions ++ [newSub] } with hdb1
  have hce : (create_subscription db u.id "week" amt pid now).1 = db1 := rfl
  have hpnone : ∀ s ∈ db.subscriptions, ¬ activeSubFor u.id now s = true := by
    intro s hs hact
    have h1 : s.user_id = u.id ∧ now ≤ s.end_date := by
      simpa [activeSubFor, ge_iff_le] using hact
    exact absurd (hins s hs h1.1) (by omega)
  have hfind_old : db.subscriptions.find? (activeSubFor u.id now) = none :=
    List.find?_eq_none.mpr hpnone
  have h1 : has_active_subscription db u.id now = false := by
    unfold has_active_subscription
    rw [hfind_old]
    rfl
  have hnewTrue : activeSubFor u.id now newSub = true := by
    have h : now ≤ now + subscription_duration "week" := by rw [hdur]; omega
    simp [activeSubFor, hns, ge_iff_le, h]
  have hsubs1 : db1.subscriptions = db.subscriptions ++ [newSub] := rfl
  have hfind1 : db1.subscriptions.find? (activeSubFor u.id now) = some newSub := by
    rw [hsubs1, find?_append_of_none _ _ hfind_old, List.find?_cons_of_pos _ hnewTrue]
  have h2 : has_active_subscription db1 u.id now = true := by
    unfold has_active_subscription
    rw [hfind1]
    rfl
  have hu1 : get_user_by_username db1 uname = some u := hu
  have hrev : revoke_subscription db1 uname now =
      ({ db1 with
          subscriptions := updateFirst (activeSubFor u.id now)
            (fun s => { s with end_date := now - 60 }) db1.subscriptions },
        some u.telegram_id) := by
    unfold revoke_subscription
    simp only [hu1, hfind1]
  have hupd2 : updateFirst (activeSubFor u.id now)
      (fun s => { s with end_date := now - 60 }) db1.subscriptions =
      db.subscriptions ++ [{ newSub with end_date := now - 60 }] := by
    rw [hsubs1, updateFirst_append_of_none _ _ _ hfind_old]
    simp [updateFirst, hnewTrue]
  have hnf : (db.subscriptions ++ [{ newSub with end_date := now - 60 }]).find?
      (activeSubFor u.id now) = none := by
    have hlate : ¬ (now ≤ now - 60) := by omega
    rw [find?_append_of_none _ _ hfind_old,
      List.find?_cons_of_neg _ (by simp [activeSubFor, ge_iff_le, hlate]), List.find?_nil]
  have h4 : has_active_subscription
      { db1 with subscriptions := db.subscriptions ++ [{ newSub with end_date := now - 60 }] }
      u.id now = false := by
    unfold has_active_subscription
    rw [show ({ db1 with
        subscriptions := db.subscriptions ++ [{ newSub with end_date := now - 60 }] } : DB).subscriptions =
      db.subscriptions ++ [{ newSub with end_date := now - 60 }] from rfl, hnf]
    rfl
  refine ⟨h1, by rw [hce]; exact h2, by rw [hce, hrev], ?_⟩
  rw [hce, hrev]
  simpa [hupd2] using h4

/-- Concrete store for the C5 witness: one user with exhausted trial and
one expired subscription. -/
def lifecycleDB : DB := ⟨[⟨1, 42, "alice", 0⟩], [⟨1, 0, 50, "week", 650, "old"⟩], []⟩

/-- Witness for C5 at `lifecycleDB` with `now = 100`: inactive, then
active after creating a week subscription, then inactive after revoking. -/
theorem subscription_lifecycle_witness :
    has_active_subscription lifecycleDB 1 100 = false ∧
    has_active_subscription (create_subscription lifecycleDB 1 "week" 650 "p1" 100).1 1 100 = true ∧
    (revoke_subscription (create_subscription lifecycleDB 1 "week" 650 "p1" 100).1 "alice" 100).2 =
      some 42 ∧
    has_active_subscription
      (revoke_subscription (create_subscription lifecycleDB 1 "week" 650 "p1" 100).1 "alice" 100).1
      1 100 = false :=
  subscription_lifecycle lifecycleDB "alice" ⟨1, 42, "alice", 0⟩ 100 650 "p1"
    (by decide) rfl (by decide)

/-- C10: a link already marked paid makes `check_payment` fail with the
store untouched (so no subscription row appears); `mark_payment_as_paid`
marks and returns the link exactly when it exists unpaid, and otherwise
returns `None` leaving the store unchanged. -/
theorem payment_one_shot :
    (∀ (db : DB) (uid : String) (ds : List Donation) (now : Int) (l : PaymentLinkR),
      get_payment_link db uid = some l → l.paid = true →
      check_payment db uid ds now = (db, .alreadyPaid)) ∧
    (∀ (db : DB) (uid : String) (l : PaymentLinkR),
      get_payment_link db uid = some l → l.paid = false →
      (mark_payment_as_paid db uid).2 = some { l with paid := true } ∧
      get_payment_link (mark_payment_as_paid db uid).1 uid = some { l with paid := true }) ∧
    (∀ (db : DB) (uid : String),
      (get_payment_link db uid = none ∨
        ∃ l, get_payment_link db uid = some l ∧ l.paid = true) →
      mark_payment_as_paid db uid = (db, none)) := by
  refine ⟨?_, ?_, ?_⟩
  · intro db uid ds now l hl hp
    unfold check_payment
    simp [hl, hp]
  · intro db uid l hl hp
    have hl' : db.payment_links.find? (fun w => w.unique_id == uid) = some l := hl
    have hq := List.find?_some hl'
    have hstep : mark_payment_as_paid db uid =
        ({ db with
            payment_links := updateFirst (fun l2 => l2.unique_id == uid)
              (fun l2 => { l2 with paid := true }) db.payment_links },
          some { l with paid := true }) := by
      unfold mark_payment_as_paid
      simp [hl, hp]
    refine ⟨by rw [hstep], ?_⟩
    rw [hstep]
    exact find?_updateFirst _ _ db.payment_links l hl' (by simpa using hq)
  · intro db uid h
    unfold mark_payment_as_paid
    rcases h with h | ⟨l, hl, hp⟩
    · simp [h]
    · simp [hl, hp]

/-- Concrete stores for the C10 witness: the same link, paid and unpaid. -/
def paidLinkDB : DB := ⟨[], [], [⟨42, "abc123", "week", 650, true⟩]⟩

def unpaidLinkDB : DB := ⟨[], [], [⟨42, "abc123", "week", 650, false⟩]⟩

/-- Witness for C10: on the paid link, `check_payment` fails and leaves
the store as it was and `mark_payment_as_paid` returns `None`; on the
unpaid link it returns the marked row. -/
theorem payment_one_shot_witness :
    check_payment paidLinkDB "abc123" [] 0 = (paidLinkDB, .alreadyPaid) ∧
    mark_payment_as_paid paidLinkDB "abc123" = (paidLinkDB, none) ∧
    (mark_payment_as_paid unpaidLinkDB "abc123").2 = some ⟨42, "abc123", "week", 650, true⟩ :=
  ⟨payment_one_shot.1 paidLinkDB "abc123" [] 0 ⟨42, "abc123", "week", 650, true⟩
      (by decide) rfl,
    payment_one_shot.2.2 paidLinkDB "abc123"
      (Or.inr ⟨⟨42, "abc123", "week", 650, true⟩, by decide, rfl⟩),
    (payment_one_shot.2.1 unpaidLinkDB "abc123" ⟨42, "abc123", "week", 650, false⟩
      (by decide) rfl).1⟩

end OddFury
